import Mathlib

/-!
Verification of the semantic event index of the MadLife repository
(`src/embedding_manager.py`, class `EventEmbeddingManager`).

The embedding models the Python module shallowly:

* Scalar cell values coming out of a pandas `DataFrame` are modelled by
  `PyVal` (absent-as-`None`, `NaN`, strings, integers), since the Python code
  branches on `pd.isna` and on truthiness and applies `str()` casts.
* The sentence-transformer model and the distance metric of the vector store
  are external capabilities; they enter as function parameters
  (`embed : String → List ℚ`, `dist : List ℚ → List ℚ → ℚ`).
* The ChromaDB collection is modelled as an association list from document id
  to the stored `(embedding, document, metadata)` triple.  Its `add`, `query`,
  `count` and `delete` operations follow the store contract stated in the
  design documentation (§4.4): order-aligned upsert, nearest-neighbour query
  ordered by ascending distance under an equality metadata predicate.
* Recursions over character lists use an explicit fuel argument (always
  instantiated with the list length) so that every definition is structurally
  recursive and evaluates inside the kernel.
-/

namespace MadLife

/-- Scalar values a pandas row cell can hold in this pipeline: Python `None`,
float `NaN`, strings, and integers.  These are the shapes the source code
distinguishes via `pd.isna`, truthiness and `str()`. -/
inductive PyVal where
  | pnone
  | pnan
  | pstr (s : String)
  | pint (n : Int)
  deriving DecidableEq, Repr

/-- Python `str()` on a scalar: `str(None) = "None"`, `str(nan) = "nan"`,
strings unchanged, integers printed. -/
def pyStr : PyVal → String
  | .pnone => "None"
  | .pnan => "nan"
  | .pstr s => s
  | .pint n => toString n

/-- Python truthiness of a scalar: `None` is falsy, `NaN` is truthy,
a string is truthy iff nonempty, an integer iff nonzero. -/
def truthy : PyVal → Bool
  | .pnone => false
  | .pnan => true
  | .pstr s => decide (s ≠ "")
  | .pint n => decide (n ≠ 0)

/-- The `pd.isna` predicate on a scalar: true exactly on `None` and `NaN`. -/
def isna : PyVal → Bool
  | .pnone => true
  | .pnan => true
  | .pstr _ => false
  | .pint _ => false

/-- Whitespace characters recognised by Python `str.strip` and `\s` (ASCII). -/
def isSpace (c : Char) : Bool :=
  decide (c = ' ' ∨ c = '\t' ∨ c = '\n' ∨ c = '\r' ∨ c = '\x0b' ∨ c = '\x0c')

/-- Python `str.strip()` on a character list: drop whitespace from both ends. -/
def stripChars (l : List Char) : List Char :=
  ((l.dropWhile isSpace).reverse.dropWhile isSpace).reverse

/-- Python `str.strip()`. -/
def pyStrip (s : String) : String :=
  String.mk (stripChars s.toList)

/-- Fuelled worker for `re.sub(r'\s+', ' ', text)`: replace every maximal run
of whitespace by a single space.  The fuel is always at least the length of
the list, so the final catch-all case is never reached on the wrapper. -/
def collapseRun : Nat → List Char → List Char
  | _ + 1, [] => []
  | f + 1, c :: rest =>
    if isSpace c then ' ' :: collapseRun f (rest.dropWhile isSpace)
    else c :: collapseRun f rest
  | 0, l => l

/-- `re.sub(r'\s+', ' ', text)`. -/
def collapseWs (l : List Char) : List Char :=
  collapseRun l.length l

/-- Fuelled worker for `re.sub(r'<[^>]+>', '', text)`: at a `<`, the regex
matches greedily up to the first following `>` provided at least one
character stands between them; non-overlapping leftmost matches are removed. -/
def removeTagsRun : Nat → List Char → List Char
  | _ + 1, [] => []
  | f + 1, c :: rest =>
    if c = '<' then
      match rest.dropWhile (fun x => x != '>') with
      | '>' :: after =>
        if (rest.takeWhile (fun x => x != '>')).isEmpty then c :: removeTagsRun f rest
        else removeTagsRun f after
      | _ => c :: removeTagsRun f rest
    else c :: removeTagsRun f rest
  | 0, l => l

/-- `re.sub(r'<[^>]+>', '', text)`. -/
def removeTags (l : List Char) : List Char :=
  removeTagsRun l.length l

/-- Single characters matched by the body of the URL regex
`(?:[a-zA-Z]|[0-9]|[$-_@.&+]|[!*\\(\\),]|(?:%[0-9a-fA-F][0-9a-fA-F]))+`:
letters, digits, the byte range `$`..`_` (which already contains `@.&+`, `%`
and both hex-digit ranges, so the three-character `%XX` alternative never
matches anything outside this set), and `! * \ ( ) ,`. -/
def urlChar (c : Char) : Bool :=
  decide (('a' ≤ c ∧ c ≤ 'z') ∨ ('A' ≤ c ∧ c ≤ 'Z') ∨ ('0' ≤ c ∧ c ≤ '9') ∨
    ('$' ≤ c ∧ c ≤ '_') ∨ c = '!' ∨ c = '*' ∨ c = '\\' ∨ c = '(' ∨ c = ')' ∨ c = ',')

/-- Fuelled worker for the URL-stripping `re.sub`: a match is the literal
`http://` or `https://` followed by a nonempty maximal run of `urlChar`s;
when the run after the scheme is empty the regex fails at this position and
the scanner advances one character. -/
def removeUrlsRun : Nat → List Char → List Char
  | _ + 1, [] => []
  | f + 1, 'h' :: 't' :: 't' :: 'p' :: 's' :: ':' :: '/' :: '/' :: rest =>
    if (rest.takeWhile urlChar).isEmpty then
      'h' :: removeUrlsRun f ('t' :: 't' :: 'p' :: 's' :: ':' :: '/' :: '/' :: rest)
    else removeUrlsRun f (rest.dropWhile urlChar)
  | f + 1, 'h' :: 't' :: 't' :: 'p' :: ':' :: '/' :: '/' :: rest =>
    if (rest.takeWhile urlChar).isEmpty then
      'h' :: removeUrlsRun f ('t' :: 't' :: 'p' :: ':' :: '/' :: '/' :: rest)
    else removeUrlsRun f (rest.dropWhile urlChar)
  | f + 1, c :: rest => c :: removeUrlsRun f rest
  | 0, l => l

/-- The URL-stripping `re.sub` of `_clean_text`. -/
def removeUrls (l : List Char) : List Char :=
  removeUrlsRun l.length l

/-- The string pipeline of `_clean_text` after the guard: `str(text).strip()`,
whitespace collapse, tag removal, URL removal, in the order of the source. -/
def cleanStr (s : String) : String :=
  String.mk (removeUrls (removeTags (collapseWs (stripChars s.toList))))

/-- `EventEmbeddingManager._clean_text`: return `""` when `pd.isna(text)` or
`not text`; otherwise run the regex pipeline on `str(text)`. -/
def cleanText (v : PyVal) : String :=
  if isna v || !truthy v then "" else cleanStr (pyStr v)

/-- Modelled from the spec: the Text Normalizer contract of §4.1 by its own
words — "Input may be missing/null/non-string; such input yields the empty
string"; string input gets whitespace collapse with trimmed ends, then tag
stripping, then URL stripping.  Stated only to compare against `cleanText`. -/
def normalizeSpec : PyVal → String
  | .pstr s => String.mk (removeUrls (removeTags (collapseWs (stripChars s.toList))))
  | _ => ""

/-- One row of the events `DataFrame`.  Every optional column is
`Option PyVal`: `none` means the column is absent (so `row.get(col, '')`
yields the default `''`), `some v` means the cell holds `v`.  The event id
column is accessed as `row['ID-EVENTO']`, which the data-model invariant of
the design (§3/§6) guarantees to be present, so it is a plain `PyVal`. -/
structure EventRow where
  idEvento : PyVal
  titulo : Option PyVal
  descripcion : Option PyVal
  tipo : Option PyVal
  distritoInstalacion : Option PyVal
  precio : Option PyVal
  gratuito : Option PyVal
  fecha : Option PyVal
  hora : Option PyVal
  nombreInstalacion : Option PyVal
  audiencia : Option PyVal
  deriving DecidableEq, Repr

/-- `row.get(col, '')`: the cell value, or the string default when the column
is absent. -/
def getF (f : Option PyVal) : PyVal :=
  f.getD (.pstr "")

/-- `EventEmbeddingManager._prepare_event_text`: clean the four text fields
and concatenate title, description, last taxonomy segment of the category and
district with their literal separators, then strip. -/
def prepareEventText (row : EventRow) : String :=
  let title := cleanText (getF row.titulo)
  let description := cleanText (getF row.descripcion)
  let tipo := cleanText (getF row.tipo)
  let district := cleanText (getF row.distritoInstalacion)
  let c0 := title
  let c1 := if description ≠ "" then c0 ++ ". " ++ description else c0
  let c2 :=
    if tipo ≠ "" then
      let tipoClean := if tipo.contains '/' then (tipo.splitOn "/").getLastD "" else tipo
      c1 ++ ". Categoría: " ++ tipoClean
    else c1
  let c3 := if district ≠ "" then c2 ++ ". Distrito: " ++ district else c2
  pyStrip c3

/-- Metadata attached to a stored document: a Python dict from string keys to
scalar values (the `title` value is stored without a `str()` cast, so the
value type must be `PyVal`, not `String`). -/
abbrev Metadata := List (String × PyVal)

/-- The metadata dict built per row inside `add_events`. -/
def metadataOf (row : EventRow) : Metadata :=
  [("title", getF row.titulo),
   ("price", .pstr (pyStr (getF row.precio))),
   ("free", .pstr (pyStr (getF row.gratuito))),
   ("date", .pstr (pyStr (getF row.fecha))),
   ("time", .pstr (pyStr (getF row.hora))),
   ("district", .pstr (pyStr (getF row.distritoInstalacion))),
   ("venue", .pstr (pyStr (getF row.nombreInstalacion))),
   ("type", .pstr (pyStr (getF row.tipo))),
   ("audience", .pstr (pyStr (getF row.audiencia)))]

/-- The per-row body of the ingestion loop: rows whose composed text is empty
are skipped (`continue`); surviving rows contribute
`(str(row['ID-EVENTO']), text, metadata)`. -/
def entryOf (row : EventRow) : Option (String × String × Metadata) :=
  let text := prepareEventText row
  if text = "" then none else some (pyStr row.idEvento, text, metadataOf row)

/-- A document persisted in the collection: embedding vector, composed text,
and metadata. -/
structure StoredDoc where
  embedding : List ℚ
  document : String
  metadata : Metadata
  deriving DecidableEq, Repr

/-- The ChromaDB collection, keyed by document id. -/
abbrev Store := List (String × StoredDoc)

/-- Presence of a key in the collection. -/
def hasKey (s : Store) (k : String) : Bool :=
  s.any (fun p => p.1 == k)

/-- Modelled from the spec: the external vector store's write operation under
the §4.4 contract — "existing IDs are overwritten, new IDs inserted" (the
source delegates to `collection.add`; the store itself is not part of the
repository). -/
def upsert (s : Store) (k : String) (v : StoredDoc) : Store :=
  if hasKey s k then s.map (fun p => if p.1 == k then (k, v) else p)
  else s ++ [(k, v)]

/-- Upsert one prepared entry, embedding its composed text. -/
def upsertEntry (embed : String → List ℚ) (s : Store) (e : String × String × Metadata) : Store :=
  upsert s e.1 ⟨embed e.2.1, e.2.1, e.2.2⟩

/-- Fuelled batch partition: `df.iloc[i:i+batch_size]` for
`i in range(0, len(df), batch_size)`.  The fuel is always instantiated with
the list length, which suffices because every step consumes at least one
element. -/
def chunksRun (bs : Nat) : Nat → List α → List (List α)
  | _ + 1, [] => []
  | f + 1, x :: xs => (x :: xs.take (bs - 1)) :: chunksRun bs f (xs.drop (bs - 1))
  | 0, _ => []

/-- Partition a list into consecutive batches of size `bs`. -/
def chunks (bs : Nat) (l : List α) : List (List α) :=
  chunksRun bs l.length l

/-- One iteration of the batch loop of `add_events`: build the parallel
`texts`/`ids`/`metadatas` lists for the batch, and if any text survived,
embed the texts and add them to the collection, counting them. -/
def processBatch (embed : String → List ℚ) (store : Store) (batch : List EventRow) :
    Nat × Store :=
  let entries := batch.filterMap entryOf
  if entries.isEmpty then (0, store)
  else (entries.length, entries.foldl (upsertEntry embed) store)

/-- `EventEmbeddingManager.add_events`: `0` immediately on an empty dataset;
`none` models the `ValueError` Python raises for a zero `range` step; else
fold the batch loop, returning the number of rows embedded and stored
together with the updated collection. -/
def addEvents (embed : String → List ℚ) (store : Store) (df : List EventRow)
    (batchSize : Nat) : Option (Nat × Store) :=
  if df.isEmpty then some (0, store)
  else if batchSize = 0 then none
  else some ((chunks batchSize df).foldl
    (fun acc b =>
      let r := processBatch embed acc.2 b
      (acc.1 + r.1, r.2))
    (0, store))

/-- The manager's persistent state and static configuration. -/
structure Manager where
  dbPath : String
  collectionName : String
  modelName : String
  store : Store
  deriving DecidableEq, Repr

/-- The dictionary returned by `get_collection_stats`. -/
structure CollectionStats where
  total_events : Nat
  collection_name : String
  model_name : String
  db_path : String
  deriving DecidableEq, Repr

/-- `EventEmbeddingManager.get_collection_stats`: the collection count plus
the static configuration. -/
def getCollectionStats (m : Manager) : CollectionStats :=
  ⟨m.store.length, m.collectionName, m.modelName, m.dbPath⟩

/-- `EventEmbeddingManager.reset_database`: delete the collection and
recreate it empty, reporting success as a boolean (the `except` branch, which
returns `False`, is reachable only through an exception of the external
client; under the §4.4 contract deleting an existing collection succeeds). -/
def resetDatabase (m : Manager) : Bool × Manager :=
  (true, { m with store := [] })

/-- One raw result of the store's nearest-neighbour query. -/
structure QEntry where
  eid : String
  document : String
  metadata : Metadata
  distance : ℚ
  deriving DecidableEq, Repr

/-- Satisfaction of the `where` clause: no clause accepts everything; a
clause is a conjunction of `$eq` constraints on metadata keys. -/
def matchesWhere (wc : Option (List (String × String))) (md : Metadata) : Bool :=
  match wc with
  | none => true
  | some cs => cs.all (fun c => decide (List.lookup c.1 md = some (.pstr c.2)))

/-- Insert a query result into a list ordered by ascending distance. -/
def insertByDist (e : QEntry) : List QEntry → List QEntry
  | [] => [e]
  | x :: xs => if e.distance ≤ x.distance then e :: x :: xs else x :: insertByDist e xs

/-- Order query results by ascending distance (tie order is unspecified by
the store contract; this model keeps earlier elements first). -/
def sortByDist (l : List QEntry) : List QEntry :=
  l.foldr insertByDist []

/-- Modelled from the spec: the external vector store's read operation under
the §4.4 contract — the top `k` candidates satisfying the metadata predicate,
ordered by ascending distance (`collection.query` is not repository code). -/
def queryStore (dist : List ℚ → List ℚ → ℚ) (store : Store) (qemb : List ℚ)
    (k : Nat) (wc : Option (List (String × String))) : List QEntry :=
  let candidates := store.filter (fun p => matchesWhere wc p.2.metadata)
  let scored := candidates.map (fun p => QEntry.mk p.1 p.2.document p.2.metadata (dist qemb p.2.embedding))
  (sortByDist scored).take k

/-- The `where_clause` dict built by `search_similar_events`: one `$eq`
constraint per truthy filter value (dict assignment, so a repeated key keeps
its last value). -/
def whereStep (acc : List (String × String)) (kv : String × PyVal) : List (String × String) :=
  if truthy kv.2 then
    (if acc.any (fun p => p.1 == kv.1) then acc.map (fun p => if p.1 == kv.1 then (kv.1, pyStr kv.2) else p)
     else acc ++ [(kv.1, pyStr kv.2)])
  else acc

/-- The full `where_clause` built from a filter dict. -/
def whereList (filt : List (String × PyVal)) : List (String × String) :=
  filt.foldl whereStep []

/-- The dictionary returned by `search_similar_events`.  `query = none` and
`event_ids = none` model the absence of those keys (the blank-query fast path
returns a dict with only `results`, `distances` and `metadatas`);
`distances = none` models the key being present with value `None` (the
`include_distances=False` case). -/
structure SearchResult where
  query : Option String
  results : List String
  metadatas : List Metadata
  event_ids : Option (List String)
  distances : Option (List ℚ)
  deriving DecidableEq, Repr

/-- `EventEmbeddingManager.search_similar_events`. -/
def searchSimilarEvents (embed : String → List ℚ) (dist : List ℚ → List ℚ → ℚ)
    (store : Store) (query : String) (nResults : Nat) (includeDistances : Bool)
    (filterMetadata : Option (List (String × PyVal))) : SearchResult :=
  if query = "" ∨ pyStrip query = "" then
    { query := none, results := [], metadatas := [], event_ids := none, distances := some [] }
  else
    let cleanQuery := cleanText (.pstr query)
    let qemb := embed cleanQuery
    let whereClause : Option (List (String × String)) :=
      match filterMetadata with
      | none => none
      | some filt => if filt.isEmpty then none else some (whereList filt)
    let rs := queryStore dist store qemb nResults whereClause
    { query := some query,
      results := rs.map (fun e => e.document),
      metadatas := rs.map (fun e => e.metadata),
      event_ids := some (rs.map (fun e => e.eid)),
      distances := if includeDistances then some (rs.map (fun e => e.distance)) else none }

/-- `metadata.get(key, '')`. -/
def mdGet (md : Metadata) (k : String) : PyVal :=
  (List.lookup k md).getD (.pstr "")

/-- One row of the exported `DataFrame`. -/
structure ResultRow where
  rank : Nat
  event_id : String
  title : PyVal
  similarity_score : ℚ
  distance : ℚ
  description_preview : String
  date : PyVal
  time : PyVal
  district : PyVal
  venue : PyVal
  type : PyVal
  free : PyVal
  deriving DecidableEq, Repr

/-- The row dict built for index `i` of the zipped results inside
`export_similar_events_df`. -/
def mkRow (i : Nat) (item : String × Metadata × String × ℚ) : ResultRow :=
  let doc := item.1
  let md := item.2.1
  let eid := item.2.2.1
  let d := item.2.2.2
  { rank := i + 1,
    event_id := eid,
    title := mdGet md "title",
    similarity_score := 1 - d,
    distance := d,
    description_preview := if 200 < doc.length then doc.take 200 ++ "..." else doc,
    date := mdGet md "date",
    time := mdGet md "time",
    district := mdGet md "district",
    venue := mdGet md "venue",
    type := mdGet md "type",
    free := mdGet md "free" }

/-- The `enumerate` loop of `export_similar_events_df`, starting at index `i`. -/
def buildRowsFrom (i : Nat) : List (String × Metadata × String × ℚ) → List ResultRow
  | [] => []
  | item :: rest => mkRow i item :: buildRowsFrom (i + 1) rest

/-- All projected rows, enumerated from `0`. -/
def buildRows (items : List (String × Metadata × String × ℚ)) : List ResultRow :=
  buildRowsFrom 0 items

/-- Python `zip` over the four parallel result lists (truncates to the
shortest list, exactly as `zip` does). -/
def zip4 (a : List α) (b : List β) (c : List γ) (d : List δ) : List (α × β × γ × δ) :=
  a.zip (b.zip (c.zip d))

/-- `EventEmbeddingManager.export_similar_events_df`: run the search with
distances included, return an empty frame when there are no results, and
otherwise project the zipped results.  `Except.error` models the `KeyError`
that would occur if `results['event_ids']` or `results['distances']` were
accessed on a dict missing those keys. -/
def exportSimilarEventsDf (embed : String → List ℚ) (dist : List ℚ → List ℚ → ℚ)
    (store : Store) (query : String) (nResults : Nat) : Except String (List ResultRow) :=
  let results := searchSimilarEvents embed dist store query nResults true none
  if results.results.isEmpty then .ok []
  else
    match results.event_ids, results.distances with
    | some ids, some ds => .ok (buildRows (zip4 results.results results.metadatas ids ds))
    | _, _ => .error "KeyError"

/-! Concrete instances used by the witness theorems below: a trivial
embedding engine, a constant distance metric, and small stores and rows. -/

/-- A concrete embedding function for witnesses (the engine is external, so
any function of the right type instantiates it). -/
def embed0 : String → List ℚ := fun _ => []

/-- A concrete distance metric for witnesses; the constant `2` lies outside
`[0, 1]`, exercising the unclamped similarity conversion. -/
def dist0 : List ℚ → List ℚ → ℚ := fun _ _ => 2

/-- A row with a title and a district (composes to nonempty text). -/
def goodRow : EventRow :=
  { idEvento := .pstr "1", titulo := some (.pstr "Concierto"), descripcion := none, tipo := none,
    distritoInstalacion := some (.pstr "Centro"), precio := none, gratuito := none, fecha := none,
    hora := none, nombreInstalacion := none, audiencia := none }

/-- A fully blank row (composes to empty text, so ingestion skips it). -/
def blankRow : EventRow :=
  { idEvento := .pstr "2", titulo := none, descripcion := none, tipo := none,
    distritoInstalacion := none, precio := none, gratuito := none, fecha := none,
    hora := none, nombreInstalacion := none, audiencia := none }

/-- A row whose `TITULO` cell is present but `NaN`. -/
def nanTitleRow : EventRow :=
  { idEvento := .pstr "3", titulo := some .pnan, descripcion := none, tipo := none,
    distritoInstalacion := none, precio := none, gratuito := none, fecha := none,
    hora := none, nombreInstalacion := none, audiencia := none }

/-- The store produced by ingesting `goodRow` into an empty collection with
`embed0`. -/
def sAfter0 : Store :=
  [("1",
    { embedding := [],
      document := "Concierto. Distrito: Centro",
      metadata := [("title", .pstr "Concierto"), ("price", .pstr ""), ("free", .pstr ""),
                   ("date", .pstr ""), ("time", .pstr ""), ("district", .pstr "Centro"),
                   ("venue", .pstr ""), ("type", .pstr ""), ("audience", .pstr "")] })]

/-- A one-document store for the projection witnesses. -/
def store0 : Store :=
  [("e1", ⟨[], "Concierto", [("title", .pstr "Concierto"), ("district", .pstr "Centro")]⟩)]

/-- A two-district store for the metadata-filter witness. -/
def store2 : Store :=
  [("e1", ⟨[], "doc1", [("district", .pstr "Centro")]⟩),
   ("e2", ⟨[], "doc2", [("district", .pstr "Retiro")]⟩)]

/-- The rows `export_similar_events_df embed0 dist0 store0 "musica" 5`
produces. -/
def rows0 : List ResultRow :=
  [{ rank := 1, event_id := "e1", title := .pstr "Concierto", similarity_score := 1 - 2,
     distance := 2, description_preview := "Concierto", date := .pstr "", time := .pstr "",
     district := .pstr "Centro", venue := .pstr "", type := .pstr "", free := .pstr "" }]

/-- A one-item zipped result list for the preview witness. -/
def items0 : List (String × Metadata × String × ℚ) :=
  [("hola", ([], ("e1", 0)))]

/-- A concrete manager for the idempotence witness. -/
def mgr0 : Manager :=
  { dbPath := "./chroma_db", collectionName := "event_descriptions",
    modelName := "sentence-transformers/paraphrase-multilingual-MiniLM-L12-v2", store := [] }

/-! Lemmas about batching and ingestion. -/

theorem chunksRun_flatten (bs : Nat) :
    ∀ (f : Nat) (l : List α), l.length ≤ f → (chunksRun bs f l).flatten = l := by
  intro f
  induction f with
  | zero =>
    intro l hl
    rw [List.length_eq_zero.mp (Nat.le_zero.mp hl)]
    rfl
  | succ f ih =>
    intro l hl
    cases l with
    | nil => rfl
    | cons x xs =>
      rw [chunksRun, List.flatten_cons, ih (xs.drop (bs - 1))
        (le_trans (by rw [List.length_drop]; exact Nat.sub_le _ _) (Nat.lt_succ_iff.mp hl))]
      rw [List.cons_append, List.take_append_drop]

theorem chunks_flatten (bs : Nat) (l : List α) : (chunks bs l).flatten = l :=
  chunksRun_flatten bs l.length l le_rfl

theorem processBatch_eq (embed : String → List ℚ) (s : Store) (b : List EventRow) :
    processBatch embed s b =
      ((b.filterMap entryOf).length, (b.filterMap entryOf).foldl (upsertEntry embed) s) := by
  simp only [processBatch]
  split
  next h => rw [List.isEmpty_iff.mp h]; rfl
  next h => rfl

theorem foldl_processBatch (embed : String → List ℚ) :
    ∀ (cs : List (List EventRow)) (acc : Nat × Store),
      cs.foldl (fun acc b => let r := processBatch embed acc.2 b; (acc.1 + r.1, r.2)) acc =
        (acc.1 + (cs.flatten.filterMap entryOf).length,
         (cs.flatten.filterMap entryOf).foldl (upsertEntry embed) acc.2) := by
  intro cs
  induction cs with
  | nil => intro acc; simp
  | cons c cs ih =>
    intro acc
    rw [List.foldl_cons, ih, List.flatten_cons, List.filterMap_append]
    simp [processBatch_eq, List.foldl_append, Nat.add_assoc]

theorem addEvents_eq (embed : String → List ℚ) (store : Store) (df : List EventRow)
    (bs : Nat) (hbs : 0 < bs) :
    addEvents embed store df bs =
      some ((df.filterMap entryOf).length, (df.filterMap entryOf).foldl (upsertEntry embed) store) := by
  unfold addEvents
  split
  next h => rw [List.isEmpty_iff.mp h]; rfl
  next h =>
    rw [if_neg (Nat.pos_iff_ne_zero.mp hbs), foldl_processBatch, chunks_flatten]
    simp

theorem length_filterMap_entryOf (df : List EventRow) :
    (df.filterMap entryOf).length = (df.filter (fun r => prepareEventText r != "")).length := by
  induction df with
  | nil => rfl
  | cons r rest ih =>
    rw [List.filterMap_cons, List.filter_cons]
    by_cases h : prepareEventText r = ""
    · have h1 : entryOf r = none := by rw [entryOf]; simp [h]
      have h2 : (prepareEventText r != "") = false := by simp [h]
      rw [h1, h2]
      simpa using ih
    · have h1 : entryOf r = some (pyStr r.idEvento, prepareEventText r, metadataOf r) := by
        rw [entryOf]; simp [h]
      have h2 : (prepareEventText r != "") = true := by simpa using h
      rw [h1, h2]
      simpa using ih

/-! Lemmas about upserting into the keyed store. -/

theorem hasKey_upsert_self (s : Store) (k : String) (v : StoredDoc) :
    hasKey (upsert s k v) k = true := by
  rw [upsert]
  split
  next h =>
    rcases List.any_eq_true.mp h with ⟨p, hp, hpk⟩
    exact List.any_eq_true.mpr ⟨(k, v), List.mem_map.mpr ⟨p, hp, by simp [hpk]⟩, by simp⟩
  next h =>
    exact List.any_eq_true.mpr ⟨(k, v), List.mem_append_right _ (List.mem_singleton.mpr rfl), by simp⟩

theorem hasKey_upsert_mono {s : Store} {k1 : String} (h : hasKey s k1 = true)
    (k : String) (v : StoredDoc) : hasKey (upsert s k v) k1 = true := by
  rw [upsert]
  rcases List.any_eq_true.mp h with ⟨p, hp, hpk⟩
  split
  · refine List.any_eq_true.mpr ⟨if p.1 == k then (k, v) else p, List.mem_map.mpr ⟨p, hp, rfl⟩, ?_⟩
    by_cases hk : (p.1 == k) = true
    · have hk1 : p.1 = k := eq_of_beq hk
      simp [hk, ← hk1, hpk]
    · simp [hk, hpk]
  · exact List.any_eq_true.mpr ⟨p, List.mem_append_left _ hp, hpk⟩

theorem length_upsert_of_hasKey {s : Store} {k : String} (h : hasKey s k = true)
    (v : StoredDoc) : (upsert s k v).length = s.length := by
  rw [upsert, if_pos h, List.length_map]

theorem hasKey_foldl_upsert_mono (embed : String → List ℚ) :
    ∀ (es : List (String × String × Metadata)) (s : Store) (k1 : String),
      hasKey s k1 = true → hasKey (es.foldl (upsertEntry embed) s) k1 = true := by
  intro es
  induction es with
  | nil => intro s k1 h; exact h
  | cons e es ih => intro s k1 h; exact ih _ _ (hasKey_upsert_mono h _ _)

theorem hasKey_foldl_upsert_of_mem (embed : String → List ℚ) :
    ∀ (es : List (String × String × Metadata)) (s : Store) (e : String × String × Metadata),
      e ∈ es → hasKey (es.foldl (upsertEntry embed) s) e.1 = true := by
  intro es
  induction es with
  | nil => intro s e h; cases h
  | cons x es ih =>
    intro s e h
    rcases List.mem_cons.mp h with h1 | h2
    · subst h1; exact hasKey_foldl_upsert_mono embed es _ _ (hasKey_upsert_self _ _ _)
    · exact ih _ _ h2

theorem length_foldl_upsert_of_all (embed : String → List ℚ) :
    ∀ (es : List (String × String × Metadata)) (s : Store),
      (∀ e ∈ es, hasKey s e.1 = true) → (es.foldl (upsertEntry embed) s).length = s.length := by
  intro es
  induction es with
  | nil => intro s _; rfl
  | cons e es ih =>
    intro s hall
    rw [List.foldl_cons, upsertEntry,
      ih _ (fun x hx => hasKey_upsert_mono (hall x (List.mem_cons_of_mem _ hx)) _ _)]
    exact length_upsert_of_hasKey (hall e (List.mem_cons_self e es)) _

/-- C2: `add_events(D)` returns the number of rows of D whose composed text is
nonempty; that count is at most `len(D)`, with equality exactly when no row of
D composes to empty text (skipped rows are not counted), and the empty dataset
returns 0 immediately with the collection untouched. -/
theorem add_events_count_le (embed : String → List ℚ) (store : Store) (df : List EventRow)
    (bs : Nat) (c : Nat) (s1 : Store) (hbs : 0 < bs)
    (h : addEvents embed store df bs = some (c, s1)) :
    c = (df.filter (fun r => prepareEventText r != "")).length ∧
    c ≤ df.length ∧
    (c = df.length ↔ ∀ r ∈ df, prepareEventText r ≠ "") ∧
    addEvents embed store ([] : List EventRow) bs = some (0, store) := by
  have heq := addEvents_eq embed store df bs hbs
  rw [h] at heq
  have hc : c = (df.filterMap entryOf).length :=
    congrArg Prod.fst (Option.some.inj heq)
  rw [length_filterMap_entryOf] at hc
  refine ⟨hc, ?_, ?_, rfl⟩
  · rw [hc]; exact List.length_filter_le _ _
  · rw [hc]
    constructor
    · intro hlen r hr
      have hfeq : df.filter (fun r => prepareEventText r != "") = df :=
        List.Sublist.eq_of_length (List.filter_sublist df) hlen
      have hrf : r ∈ df.filter (fun r => prepareEventText r != "") := by rw [hfeq]; exact hr
      exact bne_iff_ne.mp (List.mem_filter.mp hrf).2
    · intro hall
      rw [List.filter_eq_self.mpr (fun a ha => bne_iff_ne.mpr (hall a ha))]

/-- Witness for C2: the theorem applied to the two-row dataset made of
`goodRow` (nonempty composed text) and `blankRow` (empty composed text),
ingested into an empty store with batch size 100: the count is 1. -/
theorem add_events_count_le_witness :
    0 < 100 ∧ (1 : Nat) ≤ 2 ∧
      (1 : Nat) = ([goodRow, blankRow].filter (fun r => prepareEventText r != "")).length := by
  have h := add_events_count_le embed0 [] [goodRow, blankRow] 100 1 sAfter0 (by decide) (by rfl)
  exact ⟨by decide, h.2.1, h.1⟩

/-- C1: ingesting an unchanged dataset twice yields the same collection count
as ingesting it once, because the second pass only upserts ids that the first
pass already made present (overwrite, not duplicate). -/
theorem add_events_idempotent_count (embed : String → List ℚ) (m : Manager)
    (df : List EventRow) (bs : Nat) (c1 c2 : Nat) (s1 s2 : Store) (hbs : 0 < bs)
    (h1 : addEvents embed m.store df bs = some (c1, s1))
    (h2 : addEvents embed s1 df bs = some (c2, s2)) :
    (getCollectionStats { m with store := s2 }).total_events =
      (getCollectionStats { m with store := s1 }).total_events := by
  have e1 := addEvents_eq embed m.store df bs hbs
  rw [h1] at e1
  have hs1 : s1 = (df.filterMap entryOf).foldl (upsertEntry embed) m.store :=
    congrArg Prod.snd (Option.some.inj e1)
  have e2 := addEvents_eq embed s1 df bs hbs
  rw [h2] at e2
  have hs2 : s2 = (df.filterMap entryOf).foldl (upsertEntry embed) s1 :=
    congrArg Prod.snd (Option.some.inj e2)
  show s2.length = s1.length
  rw [hs2]
  exact length_foldl_upsert_of_all embed _ _
    (fun e he => by rw [hs1]; exact hasKey_foldl_upsert_of_mem embed _ _ e he)

/-- Witness for C1: the theorem applied to the one-row dataset `[goodRow]`
ingested twice into the fresh manager `mgr0`; both ingestions are discharged
by evaluation and both leave the store at `sAfter0`. -/
theorem add_events_idempotent_count_witness :
    (getCollectionStats { mgr0 with store := sAfter0 }).total_events =
      (getCollectionStats { mgr0 with store := sAfter0 }).total_events :=
  add_events_idempotent_count embed0 mgr0 [goodRow] 1 1 1 sAfter0 sAfter0 (by decide)
    (by rfl) (by rfl)

/-- C3: a blank or whitespace-only query makes `search_similar_events` return
the empty result set immediately (the fast path returns a constant), for any
result count, include flag and metadata filter; the DataFrame projection
returns an empty frame for such a query. -/
theorem blank_query_empty (embed : String → List ℚ) (dist : List ℚ → List ℚ → ℚ)
    (store : Store) (q : String) (k : Nat) (incl : Bool)
    (filt : Option (List (String × PyVal))) (h : pyStrip q = "") :
    searchSimilarEvents embed dist store q k incl filt =
      { query := none, results := [], metadatas := [], event_ids := none, distances := some [] } ∧
    exportSimilarEventsDf embed dist store q k = .ok [] := by
  have hb : q = "" ∨ pyStrip q = "" := Or.inr h
  have hs : ∀ (incl2 : Bool) (filt2 : Option (List (String × PyVal))),
      searchSimilarEvents embed dist store q k incl2 filt2 =
        { query := none, results := [], metadatas := [], event_ids := none,
          distances := some [] } := by
    intro incl2 filt2
    rw [searchSimilarEvents.eq_def, if_pos hb]
  refine ⟨hs incl filt, ?_⟩
  simp only [exportSimilarEventsDf]
  rw [hs true none]
  rfl

/-- Witness for C3: the theorem applied to the whitespace query at concrete
arguments. -/
theorem blank_query_empty_witness :
    searchSimilarEvents embed0 dist0 store0 "  " 3 false (some [("district", .pstr "Centro")]) =
      { query := none, results := [], metadatas := [], event_ids := none,
        distances := some [] } ∧
    exportSimilarEventsDf embed0 dist0 store0 "  " 3 = .ok [] :=
  blank_query_empty embed0 dist0 store0 "  " 3 false (some [("district", .pstr "Centro")])
    (by rfl)

/-! Lemmas about the projected rows. -/

theorem buildRowsFrom_length :
    ∀ (items : List (String × Metadata × String × ℚ)) (j : Nat),
      (buildRowsFrom j items).length = items.length := by
  intro items
  induction items with
  | nil => intro j; rfl
  | cons item rest ih => intro j; simp [buildRowsFrom, ih]

theorem buildRowsFrom_get :
    ∀ (items : List (String × Metadata × String × ℚ)) (j i : Nat)
      (h1 : i < (buildRowsFrom j items).length) (h2 : i < items.length),
      (buildRowsFrom j items).get ⟨i, h1⟩ = mkRow (j + i) (items.get ⟨i, h2⟩) := by
  intro items
  induction items with
  | nil => intro j i h1 h2; exact absurd h2 (Nat.not_lt_zero i)
  | cons item rest ih =>
    intro j i h1 h2
    cases i with
    | zero => simp [buildRowsFrom]
    | succ n =>
      have h1a : n < (buildRowsFrom (j + 1) rest).length := by
        rw [buildRowsFrom_length] at h1 ⊢
        exact Nat.lt_of_succ_lt_succ h1
      have h2a : n < rest.length := Nat.lt_of_succ_lt_succ h2
      have hj : j + 1 + n = j + (n + 1) := by omega
      have := ih (j + 1) n h1a h2a
      simp only [buildRowsFrom, List.get_cons_succ, List.length_cons] at *
      rw [this, hj]

theorem buildRows_get_props (items : List (String × Metadata × String × ℚ)) (i : Nat)
    (hi : i < (buildRows items).length) :
    ((buildRows items).get ⟨i, hi⟩).rank = i + 1 ∧
    ((buildRows items).get ⟨i, hi⟩).similarity_score =
      1 - ((buildRows items).get ⟨i, hi⟩).distance := by
  have h2 : i < items.length := lt_of_lt_of_le hi (le_of_eq (buildRowsFrom_length items 0))
  rw [show (buildRows items).get ⟨i, hi⟩ = mkRow (0 + i) (items.get ⟨i, h2⟩) from
    buildRowsFrom_get items 0 i hi h2]
  exact ⟨by simp [mkRow], by simp [mkRow]⟩

/-- C4: every row of the projected DataFrame has `rank = index + 1` (1-based,
in result order) and `similarity_score = 1 - distance`, exactly; a distance
above 1 therefore yields a negative similarity — no clamping happens. -/
theorem projection_rank_similarity (embed : String → List ℚ) (dist : List ℚ → List ℚ → ℚ)
    (store : Store) (q : String) (n : Nat) (rows : List ResultRow)
    (h : exportSimilarEventsDf embed dist store q n = .ok rows)
    (i : Nat) (hi : i < rows.length) :
    (rows.get ⟨i, hi⟩).rank = i + 1 ∧
    (rows.get ⟨i, hi⟩).similarity_score = 1 - (rows.get ⟨i, hi⟩).distance ∧
    (1 < (rows.get ⟨i, hi⟩).distance → (rows.get ⟨i, hi⟩).similarity_score < 0) := by
  have hrows : rows = [] ∨ ∃ items, rows = buildRows items := by
    simp only [exportSimilarEventsDf] at h
    split at h
    · exact Or.inl (Except.ok.inj h).symm
    · split at h
      · exact Or.inr ⟨_, (Except.ok.inj h).symm⟩
      · cases h
  rcases hrows with hnil | ⟨items, hitems⟩
  · subst hnil; exact absurd hi (by simp)
  · subst hitems
    obtain ⟨hrank, hsim⟩ := buildRows_get_props items i hi
    exact ⟨hrank, hsim, fun hd => by rw [hsim]; linarith⟩

/-- Witness for C4: the theorem applied to the concrete export over `store0`
with the constant distance 2; the hypotheses are discharged by evaluation. -/
theorem projection_rank_similarity_witness :
    (rows0.get ⟨0, by decide⟩).rank = 0 + 1 ∧
    (rows0.get ⟨0, by decide⟩).similarity_score = 1 - (rows0.get ⟨0, by decide⟩).distance := by
  have h := projection_rank_similarity embed0 dist0 store0 "musica" 5 rows0 (by rfl) 0 (by decide)
  exact ⟨h.1, h.2.1⟩

/-- C5: the description preview of a projected row equals the stored document
text when its length is at most 200 characters, and otherwise equals its
first 200 characters followed by the ellipsis marker. -/
theorem preview_truncation (items : List (String × Metadata × String × ℚ)) (i : Nat)
    (h1 : i < (buildRows items).length) (h2 : i < items.length) :
    ((items.get ⟨i, h2⟩).1.length ≤ 200 →
      ((buildRows items).get ⟨i, h1⟩).description_preview = (items.get ⟨i, h2⟩).1) ∧
    (200 < (items.get ⟨i, h2⟩).1.length →
      ((buildRows items).get ⟨i, h1⟩).description_preview =
        (items.get ⟨i, h2⟩).1.take 200 ++ "...") := by
  rw [show (buildRows items).get ⟨i, h1⟩ = mkRow (0 + i) (items.get ⟨i, h2⟩) from
    buildRowsFrom_get items 0 i h1 h2]
  constructor
  · intro hle
    simp only [mkRow]
    rw [if_neg (Nat.not_lt.mpr hle)]
  · intro hgt
    simp only [mkRow]
    rw [if_pos hgt]

/-- Witness for C5: the theorem applied to the one-item list `items0`, whose
document text is short, so the preview is the unmodified text. -/
theorem preview_truncation_witness :
    ((buildRows items0).get ⟨0, by decide⟩).description_preview = "hola" := by
  have h := preview_truncation items0 0 (by decide) (by decide)
  exact h.1 (by decide)

/-- C8: `reset_database` reports success as a boolean, and after a successful
reset the stats report zero stored events while the collection name, model
identifier and persistence path are unchanged. -/
theorem reset_roundtrip_stats (m : Manager) :
    (resetDatabase m).1 = true ∧
    (getCollectionStats (resetDatabase m).2).total_events = 0 ∧
    (getCollectionStats (resetDatabase m).2).collection_name =
      (getCollectionStats m).collection_name ∧
    (getCollectionStats (resetDatabase m).2).model_name = (getCollectionStats m).model_name ∧
    (getCollectionStats (resetDatabase m).2).db_path = (getCollectionStats m).db_path :=
  ⟨rfl, rfl, rfl, rfl, rfl⟩

/-- C10: for every ingested row the stored metadata casts price, free, date,
time, district, venue, type and audience to strings via `str()`, while the
title value is stored verbatim without a cast; in particular a row whose
`TITULO` cell is `NaN` stores the non-string `NaN` as its title. -/
theorem metadata_title_verbatim (row : EventRow) :
    List.lookup "title" (metadataOf row) = some (getF row.titulo) ∧
    List.lookup "price" (metadataOf row) = some (.pstr (pyStr (getF row.precio))) ∧
    List.lookup "free" (metadataOf row) = some (.pstr (pyStr (getF row.gratuito))) ∧
    List.lookup "date" (metadataOf row) = some (.pstr (pyStr (getF row.fecha))) ∧
    List.lookup "time" (metadataOf row) = some (.pstr (pyStr (getF row.hora))) ∧
    List.lookup "district" (metadataOf row) =
      some (.pstr (pyStr (getF row.distritoInstalacion))) ∧
    List.lookup "venue" (metadataOf row) = some (.pstr (pyStr (getF row.nombreInstalacion))) ∧
    List.lookup "type" (metadataOf row) = some (.pstr (pyStr (getF row.tipo))) ∧
    List.lookup "audience" (metadataOf row) = some (.pstr (pyStr (getF row.audiencia))) ∧
    List.lookup "title" (metadataOf nanTitleRow) = some .pnan :=
  ⟨rfl, rfl, rfl, rfl, rfl, rfl, rfl, rfl, rfl, rfl⟩

/-! Lemmas about association-list lookup, the built where clause, and
membership in the query results. -/

theorem lookup_mem {β : Type} :
    ∀ {l : List (String × β)} {k : String} {v : β},
      List.lookup k l = some v → (k, v) ∈ l := by
  intro l
  induction l with
  | nil => intro k v h; cases h
  | cons p rest ih =>
    intro k v h
    rcases p with ⟨k1, v1⟩
    rw [List.lookup_cons] at h
    by_cases hk : (k == k1) = true
    · simp only [hk] at h
      exact List.mem_cons.mpr (Or.inl (by rw [eq_of_beq hk, Option.some.inj h]))
    · rw [Bool.not_eq_true] at hk
      simp only [hk] at h
      exact List.mem_cons.mpr (Or.inr (ih h))

theorem lookup_append_ne {β : Type} {k1 k : String} (hne : k1 ≠ k)
    (acc : List (String × β)) (w : β) :
    List.lookup k1 (acc ++ [(k, w)]) = List.lookup k1 acc := by
  induction acc with
  | nil => simp [List.lookup_cons, beq_eq_false_iff_ne.mpr hne, List.lookup]
  | cons p rest ih =>
    rcases p with ⟨k2, v2⟩
    rw [List.cons_append, List.lookup_cons, List.lookup_cons]
    cases hk : k1 == k2 <;> simp [ih]

theorem lookup_map_replace {k : String} (w : String) :
    ∀ {acc : List (String × String)}, acc.any (fun p => p.1 == k) = true →
      List.lookup k (acc.map (fun p => if p.1 == k then (k, w) else p)) = some w := by
  intro acc
  induction acc with
  | nil => intro h; cases h
  | cons p rest ih =>
    intro h
    rcases p with ⟨k2, v2⟩
    rw [List.map_cons]
    by_cases hpk : (k2 == k) = true
    · rw [if_pos hpk, List.lookup_cons]
      simp
    · rw [Bool.not_eq_true] at hpk
      rw [if_neg (by rw [hpk]; exact Bool.false_ne_true), List.lookup_cons]
      have hk1 : (k == k2) = false :=
        beq_eq_false_iff_ne.mpr (Ne.symm (beq_eq_false_iff_ne.mp hpk))
      simp only [hk1]
      refine ih ?_
      rw [List.any_cons] at h
      simpa [hpk] using h

theorem lookup_map_replace_ne {k1 kk : String} (w : String) (hne : k1 ≠ kk) :
    ∀ (acc : List (String × String)),
      List.lookup k1 (acc.map (fun p => if p.1 == kk then (kk, w) else p)) =
        List.lookup k1 acc := by
  intro acc
  induction acc with
  | nil => rfl
  | cons p rest ih =>
    rcases p with ⟨k2, v2⟩
    rw [List.map_cons]
    by_cases hpk : (k2 == kk) = true
    · rw [if_pos hpk, List.lookup_cons, List.lookup_cons]
      have h1 : (k1 == kk) = false := beq_eq_false_iff_ne.mpr hne
      have h2 : (k1 == k2) = false := by rw [eq_of_beq hpk]; exact h1
      simp only [h1, h2]
      exact ih
    · rw [if_neg hpk, List.lookup_cons, List.lookup_cons]
      cases hk : k1 == k2
      · simp only [hk]; exact ih
      · simp only [hk]

theorem lookup_not_hasKey_append {β : Type} {k : String} :
    ∀ {acc : List (String × β)}, acc.any (fun p => p.1 == k) = false →
      ∀ (l2 : List (String × β)), List.lookup k (acc ++ l2) = List.lookup k l2 := by
  intro acc
  induction acc with
  | nil => intro _ l2; rfl
  | cons p rest ih =>
    intro h l2
    rcases p with ⟨k2, v2⟩
    rw [List.any_cons, Bool.or_eq_false_iff] at h
    have hk : (k == k2) = false :=
      beq_eq_false_iff_ne.mpr (Ne.symm (beq_eq_false_iff_ne.mp h.1))
    rw [List.cons_append, List.lookup_cons]
    simp only [hk]
    exact ih h.2 l2

theorem lookup_whereStep_self (acc : List (String × String)) (kk : String) (vv : PyVal)
    (htr : truthy vv = true) :
    List.lookup kk (whereStep acc (kk, vv)) = some (pyStr vv) := by
  rw [whereStep, if_pos htr]
  split
  next h => exact lookup_map_replace _ h
  next h =>
    have hf : acc.any (fun p => p.1 == kk) = false := by
      cases hx : acc.any (fun p => p.1 == kk)
      · rfl
      · exact absurd hx h
    rw [lookup_not_hasKey_append hf _]
    simp [List.lookup_cons]

theorem lookup_whereStep_ne {k1 : String} (acc : List (String × String))
    (kv : String × PyVal) (hne : k1 ≠ kv.1) :
    List.lookup k1 (whereStep acc kv) = List.lookup k1 acc := by
  rw [whereStep]
  by_cases htr : truthy kv.2 = true
  · rw [if_pos htr]
    split
    next h => exact lookup_map_replace_ne _ hne acc
    next h => exact lookup_append_ne hne acc _
  · rw [if_neg htr]

theorem lookup_foldl_whereStep_not_mem {k1 : String} :
    ∀ (filt : List (String × PyVal)) (acc : List (String × String)),
      k1 ∉ filt.map Prod.fst →
      List.lookup k1 (filt.foldl whereStep acc) = List.lookup k1 acc := by
  intro filt
  induction filt with
  | nil => intro acc _; rfl
  | cons kv rest ih =>
    intro acc hk
    rw [List.map_cons, List.mem_cons, not_or] at hk
    rw [List.foldl_cons, ih _ hk.2]
    exact lookup_whereStep_ne acc kv hk.1

theorem lookup_foldl_whereStep_of_mem {kk : String} {vv : PyVal} :
    ∀ (filt : List (String × PyVal)) (acc : List (String × String)),
      (filt.map Prod.fst).Nodup → (kk, vv) ∈ filt → truthy vv = true →
      List.lookup kk (filt.foldl whereStep acc) = some (pyStr vv) := by
  intro filt
  induction filt with
  | nil => intro acc _ hmem _; cases hmem
  | cons kv rest ih =>
    intro acc hnd hmem htr
    rw [List.map_cons, List.nodup_cons] at hnd
    rcases List.mem_cons.mp hmem with heq | hmem2
    · have hk : kv.1 = kk := by rw [← heq]
      rw [List.foldl_cons, lookup_foldl_whereStep_not_mem rest _ (hk ▸ hnd.1)]
      rw [← heq]
      exact lookup_whereStep_self acc kk vv htr
    · rw [List.foldl_cons]
      exact ih _ hnd.2 hmem2 htr

theorem lookup_whereList {filt : List (String × PyVal)} {kk : String} {vv : PyVal}
    (hnd : (filt.map Prod.fst).Nodup) (hmem : (kk, vv) ∈ filt) (htr : truthy vv = true) :
    List.lookup kk (whereList filt) = some (pyStr vv) :=
  lookup_foldl_whereStep_of_mem filt [] hnd hmem htr

theorem mem_insertByDist {x e : QEntry} :
    ∀ {l : List QEntry}, x ∈ insertByDist e l → x = e ∨ x ∈ l := by
  intro l
  induction l with
  | nil => intro h; exact Or.inl (List.mem_singleton.mp h)
  | cons y l ih =>
    intro h
    rw [insertByDist] at h
    split at h
    · exact List.mem_cons.mp h
    · rcases List.mem_cons.mp h with h1 | h2
      · exact Or.inr (List.mem_cons.mpr (Or.inl h1))
      · rcases ih h2 with h3 | h4
        · exact Or.inl h3
        · exact Or.inr (List.mem_cons.mpr (Or.inr h4))

theorem mem_sortByDist {x : QEntry} :
    ∀ {l : List QEntry}, x ∈ sortByDist l → x ∈ l := by
  intro l
  induction l with
  | nil => intro h; cases h
  | cons y l ih =>
    intro h
    rw [sortByDist, List.foldr_cons] at h
    rcases mem_insertByDist h with h1 | h2
    · exact List.mem_cons.mpr (Or.inl h1)
    · exact List.mem_cons.mpr (Or.inr (ih h2))

theorem queryStore_matches {dist : List ℚ → List ℚ → ℚ} {store : Store} {qemb : List ℚ}
    {k : Nat} {wc : Option (List (String × String))} {e : QEntry}
    (h : e ∈ queryStore dist store qemb k wc) : matchesWhere wc e.metadata = true := by
  simp only [queryStore] at h
  have h1 := List.take_subset _ _ h
  have h2 := mem_sortByDist h1
  rcases List.mem_map.mp h2 with ⟨p, hp, hpe⟩
  rw [← hpe]
  exact (List.mem_filter.mp hp).2

/-- C6: every truthy entry `(kk, vv)` of a supplied metadata filter becomes an
exact-match constraint, so each returned result's metadata at `kk` equals
`str(vv)` exactly; an entry with a falsy value contributes no constraint to
the where clause at all. -/
theorem metadata_filter_exact (embed : String → List ℚ) (dist : List ℚ → List ℚ → ℚ)
    (store : Store) (q : String) (k : Nat) (incl : Bool)
    (filt : List (String × PyVal)) (kk : String) (vv : PyVal) :
    ((filt.map Prod.fst).Nodup → (kk, vv) ∈ filt → truthy vv = true →
      ∀ md, md ∈ (searchSimilarEvents embed dist store q k incl (some filt)).metadatas →
        List.lookup kk md = some (.pstr (pyStr vv))) ∧
    (truthy vv = false → ∀ (pre post : List (String × PyVal)),
      whereList (pre ++ (kk, vv) :: post) = whereList (pre ++ post)) := by
  constructor
  · intro hnd hmem htr md hmd
    by_cases hb : q = "" ∨ pyStrip q = ""
    · rw [searchSimilarEvents.eq_def, if_pos hb] at hmd
      cases hmd
    · rw [searchSimilarEvents.eq_def, if_neg hb] at hmd
      have hfne : filt.isEmpty = false := by
        cases filt
        · cases hmem
        · rfl
      simp only [hfne, Bool.false_eq_true, if_false] at hmd
      rcases List.mem_map.mp hmd with ⟨e, he, hemd⟩
      have hwc : matchesWhere (some (whereList filt)) e.metadata = true := queryStore_matches he
      have hcm : (kk, pyStr vv) ∈ whereList filt := lookup_mem (lookup_whereList hnd hmem htr)
      have hall := List.all_eq_true.mp hwc _ hcm
      rw [← hemd]
      exact of_decide_eq_true hall
  · intro htr pre post
    rw [whereList, whereList, List.foldl_append, List.foldl_append, List.foldl_cons]
    rw [show whereStep (pre.foldl whereStep []) (kk, vv) = pre.foldl whereStep [] from by
      rw [whereStep, if_neg (by rw [htr]; exact Bool.false_ne_true)]]

/-- Witness for C6: the theorem applied to the filter `district = "Centro"`
over the two-district store `store2`; the membership of the surviving
result's metadata is discharged by evaluating the search pipeline. -/
theorem metadata_filter_exact_witness :
    List.lookup "district" [("district", PyVal.pstr "Centro")] =
      some (PyVal.pstr (pyStr (PyVal.pstr "Centro"))) :=
  (metadata_filter_exact embed0 dist0 store2 "fiesta" 5 true
      [("district", PyVal.pstr "Centro")] "district" (PyVal.pstr "Centro")).1
    (by decide) (by decide) (by rfl) [("district", PyVal.pstr "Centro")] (by decide)

/-- C7 (counterexample): the claim "the normalizer returns the empty string
for every missing/null/non-string input" fails on the code: the truthy
non-string input `5` is cast with `str()` and cleaned to `"5"`, not mapped to
the empty string. -/
theorem clean_text_spec_counterexample :
    ¬ ∀ v : PyVal, cleanText v = normalizeSpec v :=
  fun h => absurd (h (.pint 5)) (by decide)

/-- C7 (amended): the normalizer returns the empty string for every
missing/null input and never fails, and for string input applies, in order,
whitespace collapse with trimmed ends, HTML-like tag stripping, and http(s)
URL stripping — exactly the spec pipeline; only truthy non-string input
diverges from the spec wording (it is `str()`-cast instead of emptied). -/
theorem clean_text_spec (v : PyVal) (h : isna v = true ∨ ∃ s, v = .pstr s) :
    cleanText v = normalizeSpec v := by
  rcases h with h | ⟨s, rfl⟩
  · cases v with
    | pnone => rfl
    | pnan => rfl
    | pstr s2 => simp [isna] at h
    | pint n => simp [isna] at h
  · by_cases hs : s = ""
    · subst hs; rfl
    · have ht : truthy (.pstr s) = true := by simp [truthy, hs]
      rw [cleanText]
      simp [isna, ht, normalizeSpec, cleanStr, pyStr]

/-- Witness for C7: the theorem applied to the null input `NaN`. -/
theorem clean_text_spec_witness : cleanText PyVal.pnan = normalizeSpec PyVal.pnan :=
  clean_text_spec .pnan (Or.inl rfl)

/-- C9: the blank-query fast path returns a dict without the `query` and
`event_ids` keys, every non-blank query returns a dict containing both, and
the DataFrame projection nevertheless never fails because it tests `results`
before touching `event_ids`. -/
theorem search_result_shape (embed : String → List ℚ) (dist : List ℚ → List ℚ → ℚ)
    (store : Store) (q : String) (k : Nat) (incl : Bool)
    (filt : Option (List (String × PyVal))) :
    ((q = "" ∨ pyStrip q = "") →
      (searchSimilarEvents embed dist store q k incl filt).query = none ∧
      (searchSimilarEvents embed dist store q k incl filt).event_ids = none) ∧
    (¬(q = "" ∨ pyStrip q = "") →
      (searchSimilarEvents embed dist store q k incl filt).query = some q ∧
      (searchSimilarEvents embed dist store q k incl filt).event_ids.isSome = true) ∧
    (exportSimilarEventsDf embed dist store q k).isOk = true := by
  refine ⟨?_, ?_, ?_⟩
  · intro hb
    rw [searchSimilarEvents.eq_def, if_pos hb]
    exact ⟨rfl, rfl⟩
  · intro hb
    rw [searchSimilarEvents.eq_def, if_neg hb]
    exact ⟨rfl, rfl⟩
  · by_cases hb : q = "" ∨ pyStrip q = ""
    · have hrec : searchSimilarEvents embed dist store q k true none =
          { query := none, results := [], metadatas := [], event_ids := none,
            distances := some [] } := by
        rw [searchSimilarEvents.eq_def, if_pos hb]
      simp only [exportSimilarEventsDf, hrec]
      rfl
    · have hrec : searchSimilarEvents embed dist store q k true none =
          { query := some q,
            results := (queryStore dist store (embed (cleanText (.pstr q))) k none).map
              (fun e => e.document),
            metadatas := (queryStore dist store (embed (cleanText (.pstr q))) k none).map
              (fun e => e.metadata),
            event_ids := some ((queryStore dist store (embed (cleanText (.pstr q))) k none).map
              (fun e => e.eid)),
            distances := some ((queryStore dist store (embed (cleanText (.pstr q))) k none).map
              (fun e => e.distance)) } := by
        rw [searchSimilarEvents.eq_def, if_neg hb]
        rfl
      simp only [exportSimilarEventsDf, hrec]
      split
      · rfl
      · rfl

/-- Witness for C9: the theorem applied at a blank and at a non-blank query
over `store0`. -/
theorem search_result_shape_witness :
    (searchSimilarEvents embed0 dist0 store0 " " 5 true none).event_ids = none ∧
    (searchSimilarEvents embed0 dist0 store0 "musica" 5 true none).query = some "musica" ∧
    (exportSimilarEventsDf embed0 dist0 store0 "musica" 5).isOk = true :=
  ⟨((search_result_shape embed0 dist0 store0 " " 5 true none).1 (Or.inr (by rfl))).2,
   ((search_result_shape embed0 dist0 store0 "musica" 5 true none).2.1 (by decide)).1,
   (search_result_shape embed0 dist0 store0 "musica" 5 true none).2.2⟩

end MadLife
